import Mathlib

/-!
# Verification of the Hetzner Robot provider's reconciliation core

A shallow embedding of the firewall and vSwitch reconciliation logic of
the `terraform-provider-hetznerrobot` repository:

* `hetznerrobot/client_firewall.go` — `setFirewall` (the rule-set encoder),
* `hetznerrobot/resource_firewall.go` — `resourceFirewallCreate`,
  `resourceFirewallUpdate`, `resourceFirewallDelete` (the firewall
  reconciler, including the IPv6 capability warnings),
* the vSwitch resource file — `resourceVSwitchUpdate` (membership
  differencing and remove/add submission).

Pure Go functions become Lean functions; the single remote call each
lifecycle function performs is modelled by an explicit outcome parameter
and a trace of issued remote calls in the result.
-/

namespace HetznerRobot

/-- Mirrors the Go struct `HetznerRobotFirewallRule`
(`client_firewall.go`): all fields are strings. -/
structure HetznerRobotFirewallRule where
  name      : String
  dstIP     : String
  dstPort   : String
  srcIP     : String
  srcPort   : String
  protocol  : String
  tcpFlags  : String
  action    : String
  ipVersion : String
  deriving Repr, DecidableEq

/-- Mirrors the Go struct `HetznerRobotFirewall` (`client_firewall.go`);
`rulesInput` is the `Rules.Input` slice. -/
structure HetznerRobotFirewall where
  ip                       : String
  whitelistHetznerServices : Bool
  status                   : String
  rulesInput               : List HetznerRobotFirewallRule
  deriving Repr, DecidableEq

/-- The field component of an encoded form key, e.g. the `name` in
`rules[input][0][name]`. -/
inductive RuleField where
  | name | ipVersion | action | srcIP | dstIP | dstPort | srcPort
  | protocol | tcpFlags
  deriving Repr, DecidableEq

/-- A key of the `url.Values` form payload built by `setFirewall`.
`input idx f` stands for the literal key `rules[input][idx][f]`,
`output idx f` for `rules[output][idx][f]`; `whitelistHos` and `status`
are the two top-level keys.  Distinct `PKey` values render to distinct
literal strings, so an association list over `PKey` is a faithful model
of the `url.Values` map (every key below is set at most once). -/
inductive PKey where
  | whitelistHos
  | status
  | input (idx : Nat) (f : RuleField)
  | output (idx : Nat) (f : RuleField)
  deriving Repr, DecidableEq

/-- The literal string of a `RuleField` as used in the Go format strings. -/
def RuleField.render : RuleField → String
  | .name => "name"
  | .ipVersion => "ip_version"
  | .action => "action"
  | .srcIP => "src_ip"
  | .dstIP => "dst_ip"
  | .dstPort => "dst_port"
  | .srcPort => "src_port"
  | .protocol => "protocol"
  | .tcpFlags => "tcp_flags"

/-- The literal string key each `PKey` stands for (the `fmt.Sprintf`
patterns of `setFirewall`). -/
def PKey.render : PKey → String
  | .whitelistHos => "whitelist_hos"
  | .status => "status"
  | .input idx f => "rules[input][" ++ toString idx ++ "][" ++ f.render ++ "]"
  | .output idx f => "rules[output][" ++ toString idx ++ "][" ++ f.render ++ "]"

/-- The body of the per-rule loop of `setFirewall`
(`client_firewall.go` lines 63–96): the `data.Set` calls issued for the
rule at index `idx`, in program order.  `name`, `ip_version` (defaulted
to `"ipv4"` when empty) and `action` are always set; for non-IPv6 rules
`src_ip` is always set and `dst_ip` only when non-empty; `dst_port` is
always set, `src_port`, `protocol` and `tcp_flags` only when non-empty. -/
def encodeRule (idx : Nat) (rule : HetznerRobotFirewallRule) :
    List (PKey × String) :=
  let ipVersion := if rule.ipVersion = "" then "ipv4" else rule.ipVersion
  [(.input idx .name, rule.name),
   (.input idx .ipVersion, ipVersion),
   (.input idx .action, rule.action)]
  ++ (if ipVersion ≠ "ipv6" then
        [(.input idx .srcIP, rule.srcIP)]
        ++ (if rule.dstIP ≠ "" then [(.input idx .dstIP, rule.dstIP)] else [])
      else [])
  ++ [(.input idx .dstPort, rule.dstPort)]
  ++ (if rule.srcPort ≠ "" then [(.input idx .srcPort, rule.srcPort)] else [])
  ++ (if rule.protocol ≠ "" then [(.input idx .protocol, rule.protocol)] else [])
  ++ (if rule.tcpFlags ≠ "" then [(.input idx .tcpFlags, rule.tcpFlags)] else [])

/-- The `for idx, rule := range firewall.Rules.Input` loop of
`setFirewall`, with `idx` starting at the given offset. -/
def encodeRules : List HetznerRobotFirewallRule → Nat → List (PKey × String)
  | [], _ => []
  | rule :: rest, idx => encodeRule idx rule ++ encodeRules rest (idx + 1)

/-- The fixed output rule group appended by `setFirewall`
(`client_firewall.go` lines 98–100). -/
def outputRulePairs : List (PKey × String) :=
  [(.output 0 .name, "Allow all"), (.output 0 .action, "accept")]

/-- The whole form payload built by `setFirewall`
(`client_firewall.go` lines 51–101), as the sequence of `data.Set`
calls: the two top-level flag keys, the indexed input rule groups, and
the fixed trailing output group. -/
def setFirewallData (firewall : HetznerRobotFirewall) : List (PKey × String) :=
  [(.whitelistHos,
      if firewall.whitelistHetznerServices then "true" else "false"),
   (.status, firewall.status)]
  ++ encodeRules firewall.rulesInput 0
  ++ outputRulePairs

/-- Look a key up in an encoded payload; the empty string stands for an
absent key (what a form reader observes for an omitted field). -/
def lookupD (payload : List (PKey × String)) (key : PKey) : String :=
  match payload.find? (fun kv => kv.1 = key) with
  | some kv => kv.2
  | none => ""

/-- Whether a key is present in an encoded payload. -/
def hasKey (payload : List (PKey × String)) (key : PKey) : Bool :=
  (payload.find? (fun kv => kv.1 = key)).isSome

/-- Severity of a Terraform diagnostic (`diag.Diagnostic`). -/
inductive Severity where
  | error
  | warning
  deriving Repr, DecidableEq

/-- A Terraform diagnostic: severity, summary and detail.  `diag.FromErr`
and `diag.Errorf` produce an error diagnostic whose summary is the
message and whose detail is empty. -/
structure Diagnostic where
  severity : Severity
  summary  : String
  detail   : String
  deriving Repr, DecidableEq

/-- `diag.FromErr` / `diag.Errorf` on a message. -/
def errDiag (msg : String) : Diagnostic :=
  { severity := .error, summary := msg, detail := "" }

/-- The `src_ip` capability warning emitted by `resourceFirewallCreate`
(`resource_firewall.go` lines 170–176) for an IPv6 rule named `name`. -/
def srcIPWarning (name : String) : Diagnostic :=
  { severity := .warning,
    summary := "IPv6 rule '" ++ name ++ "': src_ip field ignored",
    detail := "Hetzner Robot API does not support source IP filtering for IPv6 rules. The src_ip field will be ignored." }

/-- The `dst_ip` capability warning emitted by `resourceFirewallCreate`
(`resource_firewall.go` lines 177–183) for an IPv6 rule named `name`. -/
def dstIPWarning (name : String) : Diagnostic :=
  { severity := .warning,
    summary := "IPv6 rule '" ++ name ++ "': dst_ip field ignored",
    detail := "Hetzner Robot API does not support destination IP filtering for IPv6 rules. The dst_ip field will be ignored." }

/-- One element of the caller-supplied `rule` list, as
`resourceFirewallCreate` reads it: each schema field is either present
as a string or absent (`ruleProperties["x"].(string)` with a discarded
`ok` yields `""` when absent). -/
structure RawRule where
  name      : Option String
  srcIP     : Option String
  srcPort   : Option String
  dstIP     : Option String
  dstPort   : Option String
  protocol  : Option String
  tcpFlags  : Option String
  action    : Option String
  ipVersion : Option String
  deriving Repr, DecidableEq

/-- The per-element rule construction of `resourceFirewallCreate`
(`resource_firewall.go` lines 155–196): every string field defaults to
`""`; `ip_version` defaults to `"ipv4"` when absent or empty. -/
def buildRule (p : RawRule) : HetznerRobotFirewallRule :=
  { name      := p.name.getD ""
    srcIP     := p.srcIP.getD ""
    srcPort   := p.srcPort.getD ""
    dstIP     := p.dstIP.getD ""
    dstPort   := p.dstPort.getD ""
    protocol  := p.protocol.getD ""
    tcpFlags  := p.tcpFlags.getD ""
    action    := p.action.getD ""
    ipVersion := match p.ipVersion with
      | some v => if v ≠ "" then v else "ipv4"
      | none => "ipv4" }

/-- The IPv6 capability warnings the create loop emits for one raw rule
(`resource_firewall.go` lines 168–184): for a rule whose (defaulted)
address family is `ipv6`, one warning per non-empty address field, the
`src_ip` warning before the `dst_ip` warning. -/
def rawRuleWarnings (p : RawRule) : List Diagnostic :=
  let ipVersion := match p.ipVersion with
    | some v => if v ≠ "" then v else "ipv4"
    | none => "ipv4"
  if ipVersion = "ipv6" then
    (if p.srcIP.getD "" ≠ "" then [srcIPWarning (p.name.getD "")] else [])
    ++ (if p.dstIP.getD "" ≠ "" then [dstIPWarning (p.name.getD "")] else [])
  else []

/-- The full rule loop of `resourceFirewallCreate`
(`resource_firewall.go` lines 148–197): elements that are not maps are
skipped (`none` entries), the rest produce a built rule and their
warnings, in input order. -/
def buildRulesCreate : List (Option RawRule) →
    List HetznerRobotFirewallRule × List Diagnostic
  | [] => ([], [])
  | none :: rest => buildRulesCreate rest
  | some p :: rest =>
      let tail := buildRulesCreate rest
      (buildRule p :: tail.1, rawRuleWarnings p ++ tail.2)

/-- The identical rule loop of `resourceFirewallUpdate`
(`resource_firewall.go` lines 268–317), kept as its own definition
because the source duplicates the code. -/
def buildRulesUpdate : List (Option RawRule) →
    List HetznerRobotFirewallRule × List Diagnostic
  | [] => ([], [])
  | none :: rest => buildRulesUpdate rest
  | some p :: rest =>
      let tail := buildRulesUpdate rest
      (buildRule p :: tail.1, rawRuleWarnings p ++ tail.2)

/-- The caller-visible input of the firewall create/update hooks: the
schema fields `server_ip`, `active`, `whitelist_hos` and `rule`. -/
structure FirewallInput where
  serverIP     : String
  active       : Bool
  whitelistHos : Bool
  rulesData    : List (Option RawRule)
  deriving Repr, DecidableEq

/-- The `HetznerRobotFirewall` value `resourceFirewallCreate` passes to
`setFirewall` (`resource_firewall.go` lines 140–204): status string
`"active"`/`"disabled"` from the `active` flag, the built rule list,
and the flags copied through. -/
def createFirewallArg (inp : FirewallInput) : HetznerRobotFirewall :=
  { ip := inp.serverIP
    whitelistHetznerServices := inp.whitelistHos
    status := if inp.active then "active" else "disabled"
    rulesInput := (buildRulesCreate inp.rulesData).1 }

/-- The `HetznerRobotFirewall` value `resourceFirewallUpdate` passes to
`setFirewall` (`resource_firewall.go` lines 260–323), again kept
separate because the source duplicates the code. -/
def updateFirewallArg (inp : FirewallInput) : HetznerRobotFirewall :=
  { ip := inp.serverIP
    whitelistHetznerServices := inp.whitelistHos
    status := if inp.active then "active" else "disabled"
    rulesInput := (buildRulesUpdate inp.rulesData).1 }

/-- A remote call issued by the firewall resource hooks: the single
`setFirewall` POST, or the `getFirewall` GET of the read path. -/
inductive FirewallCall where
  | setFirewall (firewall : HetznerRobotFirewall)
  | getFirewall (ip : String)
  deriving Repr, DecidableEq

/-- Observable outcome of a firewall lifecycle hook: the remote calls it
issued, whether `d.SetId` was executed, the resulting resource identity
and the returned diagnostics. -/
structure FirewallOpResult where
  calls     : List FirewallCall
  setIdRun  : Bool
  id        : Option String
  diags     : List Diagnostic
  deriving Repr, DecidableEq

/-- `resourceFirewallCreate` (`resource_firewall.go` lines 134–211):
builds the firewall value, calls `setFirewall`; on a transport error it
returns `diag.FromErr(err)` alone without touching the identity; on
success it sets the identity to the bound server address and returns
the accumulated warnings.  `applyErr` is the outcome of the single
remote call, `initId` the identity before the hook ran. -/
def resourceFirewallCreate (inp : FirewallInput) (applyErr : Option String)
    (initId : Option String) : FirewallOpResult :=
  let firewall := createFirewallArg inp
  match applyErr with
  | some e =>
      { calls := [.setFirewall firewall], setIdRun := false,
        id := initId, diags := [errDiag e] }
  | none =>
      { calls := [.setFirewall firewall], setIdRun := true,
        id := some inp.serverIP,
        diags := (buildRulesCreate inp.rulesData).2 }

/-- `resourceFirewallUpdate` (`resource_firewall.go` lines 254–329):
same algorithm as create except that it never calls `d.SetId`. -/
def resourceFirewallUpdate (inp : FirewallInput) (applyErr : Option String)
    (initId : Option String) : FirewallOpResult :=
  let firewall := updateFirewallArg inp
  match applyErr with
  | some e =>
      { calls := [.setFirewall firewall], setIdRun := false,
        id := initId, diags := [errDiag e] }
  | none =>
      { calls := [.setFirewall firewall], setIdRun := false,
        id := initId,
        diags := (buildRulesUpdate inp.rulesData).2 }

/-- `resourceFirewallDelete` (`resource_firewall.go` lines 331–336): the
body only declares an empty diagnostics slice and returns it; no client
method is called and the identity is untouched. -/
def resourceFirewallDelete (initId : Option String) : FirewallOpResult :=
  { calls := [], setIdRun := false, id := initId, diags := [] }

/-- The sanitize step for one rule, as the composition the code
implements: the warnings of the create loop
(`resource_firewall.go` lines 168–184) paired with the rule as the
remote side observes it through the encoder — the rule read back from
the rule's encoded field group (`client_firewall.go` lines 63–96),
absent keys reading as `""`. -/
def decodeRule (idx : Nat) (payload : List (PKey × String)) :
    HetznerRobotFirewallRule :=
  { name      := lookupD payload (.input idx .name)
    srcIP     := lookupD payload (.input idx .srcIP)
    srcPort   := lookupD payload (.input idx .srcPort)
    dstIP     := lookupD payload (.input idx .dstIP)
    dstPort   := lookupD payload (.input idx .dstPort)
    protocol  := lookupD payload (.input idx .protocol)
    tcpFlags  := lookupD payload (.input idx .tcpFlags)
    action    := lookupD payload (.input idx .action)
    ipVersion := lookupD payload (.input idx .ipVersion) }

/-- The capability warnings for an already-built rule (the create loop's
conditions, restated on the `HetznerRobotFirewallRule` the loop builds
from the same raw fields). -/
def ruleWarnings (rule : HetznerRobotFirewallRule) : List Diagnostic :=
  if rule.ipVersion = "ipv6" then
    (if rule.srcIP ≠ "" then [srcIPWarning rule.name] else [])
    ++ (if rule.dstIP ≠ "" then [dstIPWarning rule.name] else [])
  else []

/-- `sanitize`: the observable effect of the sanitize step on one rule —
the rule as transmitted (decoded back from its encoded group) together
with the warnings the reconciler emits for it. -/
def sanitize (rule : HetznerRobotFirewallRule) :
    HetznerRobotFirewallRule × List Diagnostic :=
  (decodeRule 0 (encodeRule 0 rule), ruleWarnings rule)

/-- Mirrors the Go struct `HetznerRobotVSwitchServer` as
`resourceVSwitchUpdate` constructs it: only the server number is set
(the remote-populated fields are not carried into the diff output). -/
structure HetznerRobotVSwitchServer where
  serverNumber : Int
  deriving Repr, DecidableEq

/-- One element of the `servers` list as `resourceVSwitchUpdate` reads
it: either its `server_number` key, or `none` when the element is not a
map or the key is not an int (such elements are skipped). -/
abbrev ServerEntry := Option Int

/-- The key set (`map[int]struct{}`) built from a `servers` list,
skipping malformed entries — the bodies of the two map-building loops
of `resourceVSwitchUpdate`. -/
def serverKeys (servers : List ServerEntry) : List Int :=
  servers.filterMap id

/-- The `serversToRemove` loop of `resourceVSwitchUpdate`: old entries,
in old order, whose server number is absent from the key set of the new
list; each yields a `HetznerRobotVSwitchServer` holding only the
number. -/
def serversToRemove (oldServers newServers : List ServerEntry) :
    List HetznerRobotVSwitchServer :=
  oldServers.filterMap fun entry =>
    match entry with
    | none => none
    | some num =>
        if num ∈ serverKeys newServers then none
        else some { serverNumber := num }

/-- The `serversToAdd` loop of `resourceVSwitchUpdate`: new entries, in
new order, whose server number is absent from the key set of the old
list. -/
def serversToAdd (oldServers newServers : List ServerEntry) :
    List HetznerRobotVSwitchServer :=
  newServers.filterMap fun entry =>
    match entry with
    | none => none
    | some num =>
        if num ∈ serverKeys oldServers then none
        else some { serverNumber := num }

/-- A remote call issued by the vSwitch resource hooks. -/
inductive VSwitchCall where
  | updateVSwitch (id name : String) (vlan : Int)
  | removeVSwitchServers (id : String)
      (servers : List HetznerRobotVSwitchServer)
  | addVSwitchServers (id : String)
      (servers : List HetznerRobotVSwitchServer)
  | getVSwitch (id : String)
  deriving Repr, DecidableEq

/-- Input of the vSwitch update hook: identity, declared name and VLAN,
and the old/new `servers` lists together with whether Terraform reports
the list as changed (`d.HasChange("servers")`). -/
structure VSwitchUpdateInput where
  id             : String
  name           : String
  vlan           : Int
  serversChanged : Bool
  oldServers     : List ServerEntry
  newServers     : List ServerEntry
  deriving Repr, DecidableEq

/-- Outcomes of the remote calls the vSwitch update hook may issue:
`none` is success, `some msg` a transport error with that message. -/
structure VSwitchEnv where
  updateErr : Option String
  removeErr : Option String
  addErr    : Option String
  readErr   : Option String
  deriving Repr, DecidableEq

/-- The trailing `resourceVSwitchRead` call of `resourceVSwitchUpdate`:
one `getVSwitch` call; on error it returns the wrapped error
diagnostic, otherwise no diagnostics. -/
def vSwitchReadResult (id : String) (readErr : Option String) :
    List VSwitchCall × List Diagnostic :=
  match readErr with
  | some e =>
      ([.getVSwitch id],
       [errDiag ("unable to find VSwitch with ID " ++ id ++ ": " ++ e)])
  | none => ([.getVSwitch id], [])

/-- `resourceVSwitchUpdate` (the vSwitch resource file, lines 190–270):
first the unconditional `updateVSwitch` call — a failure there aborts
the hook with an error diagnostic.  When the `servers` list changed,
the remove call is issued with `serversToRemove` and then the add call
with `serversToAdd`; the `diag.Errorf` values built on their failures
are discarded by the source (the statements drop the results), so
`removeErr` and `addErr` influence neither the control flow nor the
returned diagnostics.  The hook ends by returning
`resourceVSwitchRead`. -/
def resourceVSwitchUpdate (inp : VSwitchUpdateInput) (env : VSwitchEnv) :
    List VSwitchCall × List Diagnostic :=
  match env.updateErr with
  | some e =>
      ([.updateVSwitch inp.id inp.name inp.vlan],
       [errDiag ("Unable to update VSwitch:\n\t \"" ++ e ++ "\"")])
  | none =>
      if inp.serversChanged then
        let toRemove := serversToRemove inp.oldServers inp.newServers
        let toAdd := serversToAdd inp.oldServers inp.newServers
        let read := vSwitchReadResult inp.id env.readErr
        ([.updateVSwitch inp.id inp.name inp.vlan,
          .removeVSwitchServers inp.id toRemove,
          .addVSwitchServers inp.id toAdd] ++ read.1,
         read.2)
      else
        let read := vSwitchReadResult inp.id env.readErr
        ([.updateVSwitch inp.id inp.name inp.vlan] ++ read.1, read.2)

/-- Whether a payload key is the `name` key of some input rule group. -/
def isInputNameKey : PKey → Bool
  | .input _ .name => true
  | _ => false

/-- Whether a payload key belongs to the input rule group of index `i`. -/
def keyHasInputIdx (i : Nat) : PKey → Bool
  | .input j _ => j == i
  | _ => false

/-- Whether a payload key belongs to an output rule group. -/
def isOutputKey : PKey → Bool
  | .output _ _ => true
  | _ => false

/-- Each encoded rule group carries exactly one `name` key, holding the
rule's name. -/
theorem filter_name_encodeRule (idx : Nat) (r : HetznerRobotFirewallRule) :
    (encodeRule idx r).filter (fun kv => isInputNameKey kv.1) =
      [(.input idx .name, r.name)] := by
  simp only [encodeRule]
  split_ifs <;> simp [isInputNameKey]

/-- All keys of an encoded rule group carry that group's index. -/
theorem filter_idx_encodeRule (idx j : Nat) (r : HetznerRobotFirewallRule) :
    (encodeRule idx r).filter (fun kv => keyHasInputIdx j kv.1) =
      if idx = j then encodeRule idx r else [] := by
  by_cases h : idx = j
  · subst h
    simp only [encodeRule, if_pos rfl]
    split_ifs <;> simp [keyHasInputIdx]
  · rw [if_neg h]
    simp only [encodeRule]
    split_ifs <;> simp [keyHasInputIdx, h]

/-- The rule loop starting at offset `i` emits no key with an index
below `i`. -/
theorem filter_idx_encodeRules_lt (rs : List HetznerRobotFirewallRule)
    (i j : Nat) (h : j < i) :
    (encodeRules rs i).filter (fun kv => keyHasInputIdx j kv.1) = [] := by
  induction rs generalizing i with
  | nil => simp [encodeRules]
  | cons r rest ih =>
      simp only [encodeRules, List.filter_append]
      rw [filter_idx_encodeRule, if_neg (by omega), ih (i + 1) (by omega)]
      simp

/-- The `name` keys of the rule loop: one per rule, indexed
contiguously from the offset, in input order. -/
theorem filter_name_encodeRules (rs : List HetznerRobotFirewallRule)
    (i : Nat) :
    (encodeRules rs i).filter (fun kv => isInputNameKey kv.1) =
      (rs.enumFrom i).map (fun p => ((.input p.1 .name : PKey), p.2.name)) := by
  induction rs generalizing i with
  | nil => simp [encodeRules]
  | cons r rest ih =>
      simp only [encodeRules, List.filter_append, List.enumFrom_cons]
      rw [filter_name_encodeRule, ih]
      simp

/-- The keys of index `i + d` emitted by the rule loop starting at
offset `i` are exactly the encoded group of the rule at position `d`,
when there is one. -/
theorem filter_idx_encodeRules (rs : List HetznerRobotFirewallRule)
    (i d : Nat) :
    (encodeRules rs i).filter (fun kv => keyHasInputIdx (i + d) kv.1) =
      (match rs.get? d with
       | some r => encodeRule (i + d) r
       | none => []) := by
  induction rs generalizing i d with
  | nil => simp [encodeRules]
  | cons r rest ih =>
      cases d with
      | zero =>
          simp only [encodeRules, List.filter_append, Nat.add_zero,
            List.get?_cons_zero]
          rw [filter_idx_encodeRule, if_pos rfl,
            filter_idx_encodeRules_lt rest (i + 1) i (by omega)]
          simp
      | succ d' =>
          simp only [encodeRules, List.filter_append, List.get?_cons_succ]
          rw [filter_idx_encodeRule, if_neg (by omega)]
          have := ih (i + 1) d'
          rw [show i + (d' + 1) = (i + 1) + d' by omega]
          simpa using this

/-- An encoded rule group contains no output-group key. -/
theorem no_output_in_encodeRule (idx : Nat)
    (r : HetznerRobotFirewallRule) :
    (encodeRule idx r).all (fun kv => !isOutputKey kv.1) = true := by
  simp only [encodeRule]
  split_ifs <;> simp [isOutputKey]

/-- The rule loop contains no output-group key. -/
theorem no_output_in_encodeRules (rs : List HetznerRobotFirewallRule)
    (i : Nat) :
    (encodeRules rs i).all (fun kv => !isOutputKey kv.1) = true := by
  induction rs generalizing i with
  | nil => simp [encodeRules]
  | cons r rest ih =>
      simp only [encodeRules, List.all_append]
      rw [no_output_in_encodeRule, ih]
      simp

/-- `serversToAdd` is the key-filtered new list: the valid new entries,
in order, whose key is not a key of the old list. -/
theorem serversToAdd_eq_filter (xs ys : List ServerEntry) :
    serversToAdd xs ys =
      ((serverKeys ys).filter (fun k => k ∉ serverKeys xs)).map
        (fun k => { serverNumber := k }) := by
  induction ys with
  | nil => simp [serversToAdd, serverKeys]
  | cons e rest ih =>
      cases e with
      | none => simpa [serversToAdd, serverKeys, List.filterMap_cons] using ih
      | some num =>
          by_cases hm : some num ∈ xs <;>
            simp [serversToAdd, serverKeys, List.filterMap_cons, hm] at ih ⊢ <;>
            simpa [serversToAdd, serverKeys] using ih

/-- `serversToRemove` is the key-filtered old list: the valid old
entries, in order, whose key is not a key of the new list. -/
theorem serversToRemove_eq_filter (xs ys : List ServerEntry) :
    serversToRemove xs ys =
      ((serverKeys xs).filter (fun k => k ∉ serverKeys ys)).map
        (fun k => { serverNumber := k }) := by
  induction xs with
  | nil => simp [serversToRemove, serverKeys]
  | cons e rest ih =>
      cases e with
      | none => simpa [serversToRemove, serverKeys, List.filterMap_cons] using ih
      | some num =>
          by_cases hm : some num ∈ ys <;>
            simp [serversToRemove, serverKeys, List.filterMap_cons, hm] at ih ⊢ <;>
            simpa [serversToRemove, serverKeys] using ih

/-- A concrete IPv6 rule carrying both addresses, used to instantiate
the sanitize theorem. -/
def sampleV6Rule : HetznerRobotFirewallRule :=
  { name := "v6", dstIP := "2001:db8::1/128", dstPort := "",
    srcIP := "2001:db8::/32", srcPort := "", protocol := "",
    tcpFlags := "", action := "accept", ipVersion := "ipv6" }

/-- C1: for an IPv6 rule the sanitize step clears both addresses in the
transmitted rule and emits exactly one warning per non-empty cleared
field, the warning naming the rule and the dropped field; an IPv4 rule
passes through unchanged with no warning. -/
theorem sanitize_ipv6_clears_and_warns (r : HetznerRobotFirewallRule) :
    (r.ipVersion = "ipv6" →
      (sanitize r).1.srcIP = "" ∧ (sanitize r).1.dstIP = "" ∧
      (sanitize r).2 =
        (if r.srcIP ≠ "" then [srcIPWarning r.name] else []) ++
        (if r.dstIP ≠ "" then [dstIPWarning r.name] else []))
    ∧ (r.ipVersion = "ipv4" → sanitize r = (r, [])) := by
  obtain ⟨nm, di, dp, si, sp, pr, tf, ac, iv⟩ := r
  constructor
  · intro h
    simp only at h
    subst h
    refine ⟨?_, ?_, ?_⟩
    · simp [sanitize, decodeRule, lookupD, encodeRule, List.find?]
      split_ifs <;> simp [List.find?]
    · simp [sanitize, decodeRule, lookupD, encodeRule, List.find?]
      split_ifs <;> simp [List.find?]
    · simp [sanitize, ruleWarnings]
  · intro h
    simp only at h
    subst h
    simp [sanitize, decodeRule, lookupD, encodeRule, ruleWarnings]
    split_ifs <;> simp_all [List.find?]

/-- C1 witness: the sanitize theorem at a concrete IPv6 rule carrying
both addresses. -/
theorem sanitize_ipv6_concrete :
    (sanitize sampleV6Rule).1.srcIP = ""
    ∧ (sanitize sampleV6Rule).1.dstIP = ""
    ∧ (sanitize sampleV6Rule).2 =
        [srcIPWarning "v6", dstIPWarning "v6"] := by
  have h := (sanitize_ipv6_clears_and_warns sampleV6Rule).1 rfl
  refine ⟨h.1, h.2.1, ?_⟩
  have := h.2.2
  simpa [sampleV6Rule] using this

/-- C2: the membership differencer returns as additions exactly the new
entries whose key is absent from the old list, in new order, and as
removals exactly the old entries whose key is absent from the new list,
in old order; a key present in both lists appears in neither output,
and equal key sets produce two empty outputs. -/
theorem membership_diff_correct (oldServers newServers : List ServerEntry) :
    serversToAdd oldServers newServers =
      ((serverKeys newServers).filter
        (fun k => k ∉ serverKeys oldServers)).map
        (fun k => { serverNumber := k })
    ∧ serversToRemove oldServers newServers =
      ((serverKeys oldServers).filter
        (fun k => k ∉ serverKeys newServers)).map
        (fun k => { serverNumber := k })
    ∧ (∀ k : Int, k ∈ serverKeys oldServers → k ∈ serverKeys newServers →
        ({ serverNumber := k } : HetznerRobotVSwitchServer) ∉
            serversToAdd oldServers newServers ∧
          ({ serverNumber := k } : HetznerRobotVSwitchServer) ∉
            serversToRemove oldServers newServers)
    ∧ ((∀ k : Int, k ∈ serverKeys oldServers ↔ k ∈ serverKeys newServers) →
        serversToAdd oldServers newServers = [] ∧
          serversToRemove oldServers newServers = []) := by
  refine ⟨serversToAdd_eq_filter _ _, serversToRemove_eq_filter _ _, ?_, ?_⟩
  · intro k hko hkn
    constructor
    · rw [serversToAdd_eq_filter]
      intro hmem
      rcases List.mem_map.mp hmem with ⟨x, hxf, hxe⟩
      have hx : x = k := by
        simpa using congrArg HetznerRobotVSwitchServer.serverNumber hxe
      subst hx
      have hp := (List.mem_filter.mp hxf).2
      exact (of_decide_eq_true hp) hko
    · rw [serversToRemove_eq_filter]
      intro hmem
      rcases List.mem_map.mp hmem with ⟨x, hxf, hxe⟩
      have hx : x = k := by
        simpa using congrArg HetznerRobotVSwitchServer.serverNumber hxe
      subst hx
      have hp := (List.mem_filter.mp hxf).2
      exact (of_decide_eq_true hp) hkn
  · intro hiff
    constructor
    · rw [serversToAdd_eq_filter]
      have hnil : (serverKeys newServers).filter
          (fun k => k ∉ serverKeys oldServers) = [] := by
        refine List.filter_eq_nil_iff.mpr ?_
        intro a ha
        simpa using (hiff a).mpr ha
      rw [hnil, List.map_nil]
    · rw [serversToRemove_eq_filter]
      have hnil : (serverKeys oldServers).filter
          (fun k => k ∉ serverKeys newServers) = [] := by
        refine List.filter_eq_nil_iff.mpr ?_
        intro a ha
        simpa using (hiff a).mp ha
      rw [hnil, List.map_nil]

/-- C2 witness: the differencer theorem at old keys 1,2 and new keys
2,3 — the shared key 2 appears in neither output and the outputs are
the expected singletons. -/
theorem membership_diff_concrete :
    serversToAdd [some 1, some 2] [some 2, some 3] = [{ serverNumber := 3 }]
    ∧ serversToRemove [some 1, some 2] [some 2, some 3] =
        [{ serverNumber := 1 }]
    ∧ ({ serverNumber := 2 } : HetznerRobotVSwitchServer) ∉
        serversToAdd [some 1, some 2] [some 2, some 3]
    ∧ ({ serverNumber := 2 } : HetznerRobotVSwitchServer) ∉
        serversToRemove [some 1, some 2] [some 2, some 3] := by
  have h := membership_diff_correct [some 1, some 2] [some 2, some 3]
  exact ⟨h.1.trans (by decide), h.2.1.trans (by decide),
    (h.2.2.1 2 (by decide) (by decide)).1,
    (h.2.2.1 2 (by decide) (by decide)).2⟩

/-- C3: evaluating the vSwitch update hook where the remove call fails —
the remove call is issued before the add call and the add call is still
attempted, but the returned diagnostics are empty: the failure of the
remove call is silently dropped (the source discards the `diag.Errorf`
values), so it is not reported to the caller. -/
theorem vswitch_remove_failure_silently_dropped :
    resourceVSwitchUpdate
      { id := "vs1", name := "sw", vlan := 4000, serversChanged := true,
        oldServers := [some 1], newServers := [] }
      { updateErr := none, removeErr := some "remove failed",
        addErr := none, readErr := none } =
    ([.updateVSwitch "vs1" "sw" 4000,
      .removeVSwitchServers "vs1" [{ serverNumber := 1 }],
      .addVSwitchServers "vs1" [],
      .getVSwitch "vs1"], []) := by
  rfl

/-- C4 counterexample: an IPv4 rule whose source address is the empty
string still gets its `src_ip` key emitted, so "optional field emitted
iff non-empty" is false for `src_ip`. -/
theorem encoder_empty_src_ip_emitted :
    ¬ ((hasKey (setFirewallData
          { ip := "1.2.3.4", whitelistHetznerServices := false,
            status := "active",
            rulesInput := [{ name := "allow ssh", dstIP := "", dstPort := "22",
                             srcIP := "", srcPort := "", protocol := "tcp",
                             tcpFlags := "", action := "accept",
                             ipVersion := "ipv4" }] })
          (.input 0 .srcIP) = true) ↔
        ({ name := "allow ssh", dstIP := "", dstPort := "22", srcIP := "",
           srcPort := "", protocol := "tcp", tcpFlags := "",
           action := "accept",
           ipVersion := "ipv4" } : HetznerRobotFirewallRule).srcIP ≠ "") := by
  decide

/-- C4 amended: in a rule's encoded group, `name`, `ip_version`,
`action`, `dst_port` — and, for non-IPv6 rules, `src_ip` — are emitted
regardless of value; `dst_ip` is emitted iff the rule is not IPv6 and
the value is non-empty; `src_port`, `protocol` and `tcp_flags` are
emitted iff non-empty; `src_ip` and `dst_ip` are never emitted for IPv6
rules. -/
theorem encoder_field_emission_policy (idx : Nat)
    (r : HetznerRobotFirewallRule) :
    hasKey (encodeRule idx r) (.input idx .name) = true
    ∧ hasKey (encodeRule idx r) (.input idx .ipVersion) = true
    ∧ hasKey (encodeRule idx r) (.input idx .action) = true
    ∧ hasKey (encodeRule idx r) (.input idx .dstPort) = true
    ∧ (hasKey (encodeRule idx r) (.input idx .srcIP) = true ↔
        (if r.ipVersion = "" then "ipv4" else r.ipVersion) ≠ "ipv6")
    ∧ (hasKey (encodeRule idx r) (.input idx .dstIP) = true ↔
        ((if r.ipVersion = "" then "ipv4" else r.ipVersion) ≠ "ipv6"
          ∧ r.dstIP ≠ ""))
    ∧ (hasKey (encodeRule idx r) (.input idx .srcPort) = true ↔
        r.srcPort ≠ "")
    ∧ (hasKey (encodeRule idx r) (.input idx .protocol) = true ↔
        r.protocol ≠ "")
    ∧ (hasKey (encodeRule idx r) (.input idx .tcpFlags) = true ↔
        r.tcpFlags ≠ "") := by
  simp only [encodeRule, hasKey]
  split_ifs <;> simp_all [List.find?]

/-- C5: the encoded payload of a rule set with N rules carries exactly
one `name` key per rule, indexed contiguously 0..N-1 in input order;
the group of index j is exactly the encoding of rule j (and empty for
j ≥ N); and the payload ends with the fixed accept-all output group,
the only output-group keys in it. -/
theorem encoder_indexed_groups_and_trailing_output
    (f : HetznerRobotFirewall) :
    (setFirewallData f).filter (fun kv => isInputNameKey kv.1) =
      f.rulesInput.enum.map (fun p => ((.input p.1 .name : PKey), p.2.name))
    ∧ (∀ j : Nat,
        (setFirewallData f).filter (fun kv => keyHasInputIdx j kv.1) =
          match f.rulesInput.get? j with
          | some r => encodeRule j r
          | none => [])
    ∧ ∃ l, setFirewallData f = l ++ outputRulePairs ∧
        l.all (fun kv => !isOutputKey kv.1) = true := by
  refine ⟨?_, ?_, ?_⟩
  · simp only [setFirewallData, List.filter_append, List.filter_cons]
    rw [filter_name_encodeRules]
    simp [isInputNameKey, outputRulePairs, List.enum]
  · intro j
    simp only [setFirewallData, List.filter_append, List.filter_cons]
    have := filter_idx_encodeRules f.rulesInput 0 j
    simp only [Nat.zero_add] at this
    rw [this]
    simp [keyHasInputIdx, outputRulePairs]
  · refine ⟨[((.whitelistHos : PKey),
        if f.whitelistHetznerServices then "true" else "false"),
        ((.status : PKey), f.status)] ++ encodeRules f.rulesInput 0, ?_, ?_⟩
    · simp [setFirewallData]
    · simp only [List.all_append]
      rw [no_output_in_encodeRules]
      simp [isOutputKey]

/-- C6 counterexample: with the `active` flag true, the payload's
status value is the literal `"active"`, not `"true"` or `"false"` — the
active flag is not serialized as a boolean literal. -/
theorem active_flag_serialized_as_status :
    lookupD (setFirewallData (createFirewallArg
        { serverIP := "1.2.3.4", active := true, whitelistHos := true,
          rulesData := [] })) .status = "active"
    ∧ ¬ (lookupD (setFirewallData (createFirewallArg
        { serverIP := "1.2.3.4", active := true, whitelistHos := true,
          rulesData := [] })) .status = "true"
      ∨ lookupD (setFirewallData (createFirewallArg
        { serverIP := "1.2.3.4", active := true, whitelistHos := true,
          rulesData := [] })) .status = "false") := by
  decide

/-- C6 amended: the encoder serializes the whitelist flag into the
literal strings `"true"`/`"false"`; the active flag reaches the payload
as the status string, which the create path sets to
`"active"`/`"disabled"`. -/
theorem encoder_flag_serialization (f : HetznerRobotFirewall)
    (inp : FirewallInput) :
    lookupD (setFirewallData f) .whitelistHos =
      (if f.whitelistHetznerServices then "true" else "false")
    ∧ lookupD (setFirewallData f) .status = f.status
    ∧ lookupD (setFirewallData (createFirewallArg inp)) .status =
      (if inp.active then "active" else "disabled") := by
  refine ⟨?_, ?_, ?_⟩ <;>
    simp [setFirewallData, lookupD, List.find?, createFirewallArg]

/-- The update hook builds its rule list by the same algorithm as the
create hook (the source duplicates the loop verbatim). -/
theorem buildRules_update_eq_create (l : List (Option RawRule)) :
    buildRulesUpdate l = buildRulesCreate l := by
  induction l with
  | nil => rfl
  | cons e rest ih =>
      cases e <;> simp [buildRulesUpdate, buildRulesCreate, ih]

/-- C7: the firewall update operation performs the same full-replace
algorithm as create — it submits the identical `HetznerRobotFirewall`
value in its single `setFirewall` call, producing the identical encoded
payload, and that payload carries every rule's indexed group. -/
theorem firewall_update_is_full_replace_like_create (inp : FirewallInput)
    (applyErr : Option String) (initId : Option String) :
    updateFirewallArg inp = createFirewallArg inp
    ∧ (resourceFirewallUpdate inp applyErr initId).calls =
        (resourceFirewallCreate inp applyErr initId).calls
    ∧ setFirewallData (updateFirewallArg inp) =
        setFirewallData (createFirewallArg inp)
    ∧ (setFirewallData (updateFirewallArg inp)).filter
        (fun kv => isInputNameKey kv.1) =
      (updateFirewallArg inp).rulesInput.enum.map
        (fun p => ((.input p.1 .name : PKey), p.2.name)) := by
  have harg : updateFirewallArg inp = createFirewallArg inp := by
    simp [updateFirewallArg, createFirewallArg, buildRules_update_eq_create]
  refine ⟨harg, ?_, by rw [harg], ?_⟩
  · cases applyErr <;>
      simp [resourceFirewallUpdate, resourceFirewallCreate, harg]
  · simp only [setFirewallData, List.filter_append, List.filter_cons]
    rw [filter_name_encodeRules]
    simp [isInputNameKey, outputRulePairs, List.enum]

/-- C8 counterexample: a declared member list with a duplicate server
number is not rejected — the hook issues its remote calls (the trace is
non-empty), returns no error, and the duplicate key produces two
entries in the additions. -/
theorem duplicate_members_not_rejected :
    (resourceVSwitchUpdate
      { id := "vs2", name := "sw", vlan := 4001, serversChanged := true,
        oldServers := [], newServers := [some 4, some 4] }
      { updateErr := none, removeErr := none,
        addErr := none, readErr := none }).1 ≠ []
    ∧ (resourceVSwitchUpdate
      { id := "vs2", name := "sw", vlan := 4001, serversChanged := true,
        oldServers := [], newServers := [some 4, some 4] }
      { updateErr := none, removeErr := none,
        addErr := none, readErr := none }).2 = []
    ∧ serversToAdd [] [some 4, some 4] =
        [{ serverNumber := 4 }, { serverNumber := 4 }] := by
  refine ⟨by decide, rfl, by decide⟩

/-- C8 amended: no duplicate-identifier validation exists: even when
the declared member list contains a duplicate server number, the hook
still begins with the unconditional remote update call and, when the
list changed and the update call succeeded, still issues the remove and
add calls. -/
theorem duplicate_members_proceed_without_validation
    (inp : VSwitchUpdateInput) (env : VSwitchEnv)
    (_hdup : ¬ (serverKeys inp.newServers).Nodup) :
    (resourceVSwitchUpdate inp env).1.head? =
      some (.updateVSwitch inp.id inp.name inp.vlan)
    ∧ (env.updateErr = none → inp.serversChanged = true →
        VSwitchCall.removeVSwitchServers inp.id
          (serversToRemove inp.oldServers inp.newServers) ∈
            (resourceVSwitchUpdate inp env).1
        ∧ VSwitchCall.addVSwitchServers inp.id
          (serversToAdd inp.oldServers inp.newServers) ∈
            (resourceVSwitchUpdate inp env).1) := by
  clear _hdup
  rcases henv : env.updateErr with _ | e
  · by_cases hch : inp.serversChanged <;>
      rcases hread : env.readErr with _ | er <;>
        simp [resourceVSwitchUpdate, henv, hch, vSwitchReadResult, hread]
  · simp [resourceVSwitchUpdate, henv]

/-- C8 witness: the amended theorem at a concrete duplicated member
list, all remote calls succeeding. -/
theorem duplicate_members_proceed_concrete :
    (resourceVSwitchUpdate
      { id := "vs3", name := "n", vlan := 7, serversChanged := true,
        oldServers := [], newServers := [some 4, some 4] }
      { updateErr := none, removeErr := none,
        addErr := none, readErr := none }).1.head? =
      some (.updateVSwitch "vs3" "n" 7)
    ∧ VSwitchCall.removeVSwitchServers "vs3"
        (serversToRemove [] [some 4, some 4]) ∈
      (resourceVSwitchUpdate
        { id := "vs3", name := "n", vlan := 7, serversChanged := true,
          oldServers := [], newServers := [some 4, some 4] }
        { updateErr := none, removeErr := none,
          addErr := none, readErr := none }).1
    ∧ VSwitchCall.addVSwitchServers "vs3"
        (serversToAdd [] [some 4, some 4]) ∈
      (resourceVSwitchUpdate
        { id := "vs3", name := "n", vlan := 7, serversChanged := true,
          oldServers := [], newServers := [some 4, some 4] }
        { updateErr := none, removeErr := none,
          addErr := none, readErr := none }).1 := by
  have h := duplicate_members_proceed_without_validation
    { id := "vs3", name := "n", vlan := 7, serversChanged := true,
      oldServers := [], newServers := [some 4, some 4] }
    { updateErr := none, removeErr := none,
      addErr := none, readErr := none } (by decide)
  exact ⟨h.1, (h.2 rfl rfl).1, (h.2 rfl rfl).2⟩

/-- C9: the firewall delete hook issues no remote call, leaves the
identity untouched, and returns no diagnostics. -/
theorem firewall_delete_issues_no_calls (initId : Option String) :
    (resourceFirewallDelete initId).calls = []
    ∧ (resourceFirewallDelete initId).diags = []
    ∧ (resourceFirewallDelete initId).id = initId
    ∧ (resourceFirewallDelete initId).setIdRun = false :=
  ⟨rfl, rfl, rfl, rfl⟩

/-- C10: the firewall create hook runs `d.SetId` exactly when the
`setFirewall` call succeeds; on success the identity becomes the bound
server address, and on any transport error the hook returns the error
with the identity unchanged. -/
theorem firewall_create_sets_id_iff_success (inp : FirewallInput)
    (applyErr : Option String) (initId : Option String) :
    ((resourceFirewallCreate inp applyErr initId).setIdRun = true ↔
      applyErr = none)
    ∧ (applyErr = none →
        (resourceFirewallCreate inp applyErr initId).id = some inp.serverIP)
    ∧ (∀ e, applyErr = some e →
        (resourceFirewallCreate inp applyErr initId).id = initId
        ∧ (resourceFirewallCreate inp applyErr initId).setIdRun = false
        ∧ (resourceFirewallCreate inp applyErr initId).diags = [errDiag e]) := by
  cases applyErr <;> simp [resourceFirewallCreate]

/-- C10 witness: a failing apply at a concrete input leaves the (empty)
identity unchanged and reports the error. -/
theorem firewall_create_error_concrete :
    (resourceFirewallCreate
      { serverIP := "9.9.9.9", active := true, whitelistHos := false,
        rulesData := [] } (some "boom") none).id = none
    ∧ (resourceFirewallCreate
      { serverIP := "9.9.9.9", active := true, whitelistHos := false,
        rulesData := [] } (some "boom") none).setIdRun = false
    ∧ (resourceFirewallCreate
      { serverIP := "9.9.9.9", active := true, whitelistHos := false,
        rulesData := [] } (some "boom") none).diags = [errDiag "boom"] :=
  (firewall_create_sets_id_iff_success
    { serverIP := "9.9.9.9", active := true, whitelistHos := false,
      rulesData := [] } (some "boom") none).2.2 "boom" rfl

end HetznerRobot
